import Mathlib

/-!
Verification of the MRP Label PDF merger (`src/app.py`).

The program reads an "Item Summary" sheet from an uploaded spreadsheet,
resolves an effective id per row (variation id when present and nonzero,
item id otherwise), locates `{id}.pdf` under a fixed `mrp_label` folder,
and appends that file to a merger `quantity` times, accumulating
`total_pages`, `processed_items`, `missing_pdfs` and per-row `errors`.

The shallow embedding below mirrors the source line by line:
spreadsheet cells become `Cell` (a numeric value or NaN), the file system
and the per-append I/O outcome become an `Env` oracle, and the mutable
accumulators of the row loop become the state record `St`.
-/

namespace MrpLabel

/-- A spreadsheet cell as pandas delivers it to the row loop: either a
numeric value or NaN (empty cell). -/
inductive Cell where
  | nan : Cell
  | num : ℚ → Cell
deriving DecidableEq

/-- `pd.isna` on a cell (src/app.py line 93 / 100). -/
def isna : Cell → Bool
  | .nan => true
  | .num _ => false

/-- The test `quantity <= 0` of src/app.py line 93; a float NaN compares
false against 0, matching Python float comparison semantics. -/
def cellLeZero : Cell → Bool
  | .nan => false
  | .num q => decide (q ≤ 0)

/-- The test `variation_id != 0` of src/app.py line 100. -/
def cellNeZero : Cell → Bool
  | .nan => true
  | .num q => decide (q ≠ 0)

/-- Python `int()` on a float truncates toward zero. -/
def truncToInt (q : ℚ) : Int := q.num.tdiv q.den

/-- Python `int(cell)`: truncation on a number, a raised `ValueError` on
NaN (src/app.py lines 97, 101, 103). -/
def cellToInt : Cell → Except String Int
  | .nan => .error "cannot convert float NaN to integer"
  | .num q => .ok (truncToInt q)

/-- One spreadsheet row after column renaming (src/app.py lines 52-56):
the three required columns. -/
structure Row where
  itemId : Cell
  variationId : Cell
  quantity : Cell
deriving DecidableEq

/-- The external world of one run: which label files exist
(`pdf_path.exists()`), whether the k-th `merger.append` of the row at
index `idx` succeeds (I/O may fail per read), and whether the
`mrp_label` folder exists (src/app.py line 77). -/
structure Env where
  files : Int → Bool
  appendOk : Nat → Nat → Bool
  labelFolderExists : Bool

/-- The accumulators of the row loop (src/app.py lines 68-72): `merged`
records the sequence of file ids appended to the `PdfMerger`, each entry
standing for that file's full content. -/
structure St where
  merged : List Int
  totalPages : Nat
  processedItems : Nat
  missingPdfs : List Int
  errors : List String
deriving DecidableEq

/-- The state before the loop: empty merger, zero counters. -/
def initSt : St := ⟨[], 0, 0, [], []⟩

/-- `f"Row {idx + 2}: {str(e)}"` (src/app.py line 121). -/
def rowErrMsg (idx : Nat) (m : String) : String :=
  "Row " ++ toString (idx + 2) ++ ": " ++ m

/-- The (environment-dependent) message of an exception raised by
`merger.append` (src/app.py line 115); modelled as a fixed string. -/
def appendFailMsg : String := "append failed"

/-- Effective-id selection (src/app.py lines 100-103):
`int(variation_id)` if `pd.notna(variation_id) and variation_id != 0`,
else `int(item_id)`. -/
def effId (row : Row) : Except String Int :=
  if !isna row.variationId && cellNeZero row.variationId then
    cellToInt row.variationId
  else
    cellToInt row.itemId

/-- The inner merge loop `for _ in range(quantity)` (src/app.py lines
114-116): each iteration appends the file and bumps `total_pages`, or
raises (second component `some msg`) leaving the state as accumulated so
far. `k` is the absolute repetition counter used by the I/O oracle. -/
def mergeLoop (env : Env) (idx : Nat) (useId : Int) :
    Nat → Nat → St → St × Option String
  | _, 0, s => (s, none)
  | k, n + 1, s =>
    if env.appendOk idx k then
      mergeLoop env idx useId (k + 1) n
        { s with merged := s.merged ++ [useId], totalPages := s.totalPages + 1 }
    else
      (s, some appendFailMsg)

/-- One iteration of the row loop, the whole `try`/`except` body
(src/app.py lines 87-121). -/
def processRow (env : Env) (idx : Nat) (row : Row) (s : St) : St :=
  if isna row.quantity || cellLeZero row.quantity then s
  else
    match cellToInt row.quantity with
    | .error e => { s with errors := s.errors ++ [rowErrMsg idx e] }
    | .ok q =>
      match effId row with
      | .error e => { s with errors := s.errors ++ [rowErrMsg idx e] }
      | .ok useId =>
        if env.files useId = false then
          { s with missingPdfs := s.missingPdfs ++ [useId] }
        else
          match mergeLoop env idx useId 0 q.toNat s with
          | (s', none) => { s' with processedItems := s'.processedItems + 1 }
          | (s', some e) => { s' with errors := s'.errors ++ [rowErrMsg idx e] }

/-- `for idx, row in df.iterrows()` (src/app.py line 86): fold
`processRow` over the index-row pairs. -/
def runRows (env : Env) : List (Nat × Row) → St → St
  | [], s => s
  | (idx, row) :: rest, s => runRows env rest (processRow env idx row s)

/-- `df.dropna(subset=..., how='all')` (src/app.py line 59): keep rows
where not all three required cells are NaN, preserving original indices. -/
def droppedRows (rows : List Row) : List (Nat × Row) :=
  rows.enum.filter fun p =>
    !(isna p.2.itemId && isna p.2.variationId && isna p.2.quantity)

/-- `col.lower().strip()` (src/app.py line 31). -/
def normalizeHeader (s : String) : String := (s.map Char.toLower).trim

/-- The required logical column names, lowercase (src/app.py line 34). -/
def requiredLower : List String := ["item id", "variation id", "quantity"]

/-- The display forms of the required columns (src/app.py line 35). -/
def requiredDisplay : List String := ["Item ID", "Variation ID", "Quantity"]

/-- The keys of `column_mapping` (src/app.py line 31). -/
def columnKeys (cols : List String) : List String := cols.map normalizeHeader

/-- The `missing_columns` list (src/app.py lines 40-44): display names of
required columns whose lowercase form is not among the normalized
headers. -/
def missingColumns (cols : List String) : List String :=
  (requiredLower.zip requiredDisplay).filterMap fun p =>
    if p.1 ∈ columnKeys cols then none else some p.2

/-- The fatal failure modes that abort a run before the row loop
(src/app.py lines 22-25, 46-49, 77-79). -/
inductive FatalError where
  | sheetMissing (available : List String)
  | columnsMissing (missing : List String) (available : List String)
  | storeMissing
deriving DecidableEq

/-- The inputs of one run: the workbook's sheet names, the header row of
the "Item Summary" sheet, and its data rows. -/
structure Input where
  sheetNames : List String
  columns : List String
  rows : List Row

/-- The whole run (src/app.py lines 16-126): sheet check, column check,
label-folder check, then the row loop over the non-blank rows. -/
def run (env : Env) (inp : Input) : Except FatalError St :=
  if "Item Summary" ∈ inp.sheetNames then
    if (missingColumns inp.columns).isEmpty then
      if env.labelFolderExists then
        .ok (runRows env (droppedRows inp.rows) initSt)
      else .error .storeMissing
    else .error (.columnsMissing (missingColumns inp.columns) inp.columns)
  else .error (.sheetMissing inp.sheetNames)

/-- The substring `".xlsx"` as a character list. -/
def xlsxPat : List Char := ".xlsx".toList

/-- Python's `name.replace('.xlsx', '')` (src/app.py line 132): scan left
to right, removing each non-overlapping occurrence of `".xlsx"`. -/
def removeXlsx : List Char → List Char
  | '.' :: 'x' :: 'l' :: 's' :: 'x' :: cs => removeXlsx cs
  | c :: cs => c :: removeXlsx cs
  | [] => []

/-- `excel_filename = uploaded_file.name.replace('.xlsx', '')`
(src/app.py line 132). -/
def excelFilename (name : String) : String := String.mk (removeXlsx name.toList)

/-- `output_filename = f"mrp_labels_{excel_filename}.pdf"`
(src/app.py line 133). -/
def outputFilename (name : String) : String :=
  "mrp_labels_" ++ excelFilename name ++ ".pdf"

/-- Follows the claim's words, not the source: the uploaded name with its
final `.xlsx` extension removed. -/
def baseNameSpec (name : String) : String :=
  if name.toList.drop (name.toList.length - 5) = xlsxPat then
    String.mk (name.toList.take (name.toList.length - 5))
  else name

/-- Derived row summary: the skip test of src/app.py line 93 passes. -/
def passesSkip (row : Row) : Bool :=
  !(isna row.quantity || cellLeZero row.quantity)

/-- The repetition count `int(quantity)` as used by `range` (src/app.py
lines 97, 114); `range` of a nonpositive int is empty. -/
def rowQty (row : Row) : Nat :=
  match cellToInt row.quantity with
  | .ok q => q.toNat
  | .error _ => 0

/-- Derived per-row resolution: `some (useId, n)` when the row passes the
skip test, both coercions succeed and the label file exists; `n` is the
truncated repetition count. -/
def resolveRow (env : Env) (row : Row) : Option (Int × Nat) :=
  if isna row.quantity || cellLeZero row.quantity then none
  else
    match cellToInt row.quantity with
    | .error _ => none
    | .ok q =>
      match effId row with
      | .error _ => none
      | .ok useId => if env.files useId then some (useId, q.toNat) else none

/-- The block of appends a fully processed row contributes to the merger. -/
def rowBlock (env : Env) (row : Row) : List Int :=
  match resolveRow env row with
  | some (u, n) => List.replicate n u
  | none => []

/-- The pages a fully processed row contributes to `total_pages`. -/
def rowPages (env : Env) (row : Row) : Nat :=
  match resolveRow env row with
  | some (_, n) => n
  | none => 0

/-- The contribution of a row to `processed_items` in an error-free run. -/
def rowOk (env : Env) (row : Row) : Nat :=
  match resolveRow env row with
  | some _ => 1
  | none => 0

/-- The contribution of a row to `missing_pdfs`. -/
def rowMissing (env : Env) (row : Row) : List Int :=
  if passesSkip row then
    match effId row with
    | .ok u => if env.files u then [] else [u]
    | .error _ => []
  else []

/-- The contribution of a row to `errors` in a run where every append
succeeds: only an effective-id coercion failure remains possible. -/
def rowErrList (idx : Nat) (row : Row) : List String :=
  if passesSkip row then
    match effId row with
    | .error e => [rowErrMsg idx e]
    | .ok _ => []
  else []

/-- Whether `".xlsx"` occurs somewhere in a character list. -/
def hasXlsx : List Char → Bool
  | [] => false
  | c :: cs => decide ((c :: cs).take 5 = xlsxPat) || hasXlsx cs

/-- A world where every label file exists and every append succeeds. -/
def envAllTrue : Env := ⟨fun _ => true, fun _ _ => true, true⟩

/-- A world where no label file exists. -/
def envNoFiles : Env := ⟨fun _ => false, fun _ _ => true, true⟩

/-- A world where, for every row, the first append succeeds and the
second raises. -/
def envFailSecond : Env := ⟨fun _ => true, fun _ k => decide (k = 0), true⟩

/-- The label store of the spec's scenario: only `7413.pdf` and `55.pdf`
exist. -/
def envScenario : Env :=
  ⟨fun i => decide (i = 7413) || decide (i = 55), fun _ _ => true, true⟩

/-- The rows of the spec's scenario, with their spreadsheet positions. -/
def scenarioRows : List (Nat × Row) :=
  [(0, ⟨.num 7413, .num 0, .num 3⟩),
   (1, ⟨.num 100, .num 55, .num 1⟩),
   (2, ⟨.num 9, .num 0, .num 0⟩)]

/-! ### Helper lemmas about the row loop -/

theorem mergeLoop_all_ok (env : Env) (idx : Nat) (u : Int)
    (h : ∀ k, env.appendOk idx k = true) :
    ∀ (n k0 : Nat) (s : St),
      mergeLoop env idx u k0 n s =
        ({ s with merged := s.merged ++ List.replicate n u,
                  totalPages := s.totalPages + n }, none) := by
  intro n
  induction n with
  | zero => intro k0 s; simp [mergeLoop]
  | succ m ih =>
    intro k0 s
    simp only [mergeLoop, h k0, if_true, ih (k0 + 1)]
    simp [St.mk.injEq, List.append_assoc, List.replicate_succ]
    omega

theorem quantity_num_of_not_skip (row : Row)
    (h : (isna row.quantity || cellLeZero row.quantity) = false) :
    ∃ q : ℚ, row.quantity = Cell.num q ∧ 0 < q := by
  cases hq : row.quantity with
  | nan => rw [hq] at h; simp [isna] at h
  | num q =>
    refine ⟨q, rfl, ?_⟩
    rw [hq] at h
    simp [isna, cellLeZero] at h
    exact h

theorem cellToInt_ok (c : Cell) (z : Int) (h : cellToInt c = .ok z) :
    ∃ q : ℚ, c = Cell.num q ∧ z = truncToInt q := by
  cases c with
  | nan => simp [cellToInt] at h
  | num q =>
    refine ⟨q, rfl, ?_⟩
    simpa [cellToInt] using h.symm

theorem processRow_skip (env : Env) (idx : Nat) (row : Row) (s : St)
    (h : (isna row.quantity || cellLeZero row.quantity) = true) :
    processRow env idx row s = s := by
  simp [processRow, h]

theorem processRow_eff_err (env : Env) (idx : Nat) (row : Row) (s : St) (e : String)
    (h1 : (isna row.quantity || cellLeZero row.quantity) = false)
    (h2 : effId row = .error e) :
    processRow env idx row s = { s with errors := s.errors ++ [rowErrMsg idx e] } := by
  obtain ⟨q, hq, -⟩ := quantity_num_of_not_skip row h1
  rw [hq] at h1
  simp only [isna, Bool.false_or] at h1
  simp [processRow, hq, isna, h1, cellToInt, h2]

theorem processRow_missing_file (env : Env) (idx : Nat) (row : Row) (s : St) (u : Int)
    (h1 : (isna row.quantity || cellLeZero row.quantity) = false)
    (h2 : effId row = .ok u) (h3 : env.files u = false) :
    processRow env idx row s = { s with missingPdfs := s.missingPdfs ++ [u] } := by
  obtain ⟨q, hq, -⟩ := quantity_num_of_not_skip row h1
  rw [hq] at h1
  simp only [isna, Bool.false_or] at h1
  simp [processRow, hq, isna, h1, cellToInt, h2, h3]

theorem processRow_found_all_ok (env : Env) (idx : Nat) (row : Row) (s : St) (u : Int)
    (h : ∀ k, env.appendOk idx k = true)
    (h1 : (isna row.quantity || cellLeZero row.quantity) = false)
    (h2 : effId row = .ok u) (h3 : env.files u = true) :
    processRow env idx row s =
      { s with merged := s.merged ++ List.replicate (rowQty row) u,
               totalPages := s.totalPages + rowQty row,
               processedItems := s.processedItems + 1 } := by
  obtain ⟨q, hq, -⟩ := quantity_num_of_not_skip row h1
  rw [hq] at h1
  simp only [isna, Bool.false_or] at h1
  have hr : rowQty row = (truncToInt q).toNat := by simp [rowQty, hq, cellToInt]
  simp [processRow, hq, isna, h1, cellToInt, h2, h3, mergeLoop_all_ok env idx u h, hr]

theorem processRow_all_ok (env : Env) (idx : Nat) (row : Row) (s : St)
    (h : ∀ k, env.appendOk idx k = true) :
    processRow env idx row s =
      { merged := s.merged ++ rowBlock env row,
        totalPages := s.totalPages + rowPages env row,
        processedItems := s.processedItems + rowOk env row,
        missingPdfs := s.missingPdfs ++ rowMissing env row,
        errors := s.errors ++ rowErrList idx row } := by
  cases hskip : (isna row.quantity || cellLeZero row.quantity) with
  | true =>
    rw [processRow_skip env idx row s hskip]
    simp [rowBlock, rowPages, rowOk, rowMissing, rowErrList, resolveRow, passesSkip, hskip]
  | false =>
    have hps : passesSkip row = true := by simp [passesSkip, hskip]
    obtain ⟨q, hq, -⟩ := quantity_num_of_not_skip row hskip
    cases he : effId row with
    | error e =>
      rw [processRow_eff_err env idx row s e hskip he]
      simp [rowBlock, rowPages, rowOk, rowMissing, rowErrList, resolveRow, hskip, hps,
        hq, cellToInt, he]
    | ok u =>
      cases hf : env.files u with
      | false =>
        rw [processRow_missing_file env idx row s u hskip he hf]
        simp [rowBlock, rowPages, rowOk, rowMissing, rowErrList, resolveRow, hskip, hps,
          hq, cellToInt, he, hf]
      | true =>
        have hle : cellLeZero (Cell.num q) = false := by
          have h0 := hskip; rw [hq] at h0; simpa [isna] using h0
        rw [processRow_found_all_ok env idx row s u h hskip he hf]
        simp [rowBlock, rowPages, rowOk, rowMissing, rowErrList, resolveRow, rowQty,
          hps, hq, cellToInt, he, hf, isna, hle]

theorem runRows_all_ok (env : Env) (h : ∀ i k, env.appendOk i k = true) :
    ∀ (irows : List (Nat × Row)) (s : St),
      runRows env irows s =
        { merged := s.merged ++ (irows.map fun p => rowBlock env p.2).flatten,
          totalPages := s.totalPages + (irows.map fun p => rowPages env p.2).sum,
          processedItems := s.processedItems + (irows.map fun p => rowOk env p.2).sum,
          missingPdfs := s.missingPdfs ++ (irows.map fun p => rowMissing env p.2).flatten,
          errors := s.errors ++ (irows.map fun p => rowErrList p.1 p.2).flatten } := by
  intro irows
  induction irows with
  | nil => intro s; simp [runRows]
  | cons p rest ih =>
    intro s
    obtain ⟨idx, row⟩ := p
    simp only [runRows]
    rw [ih, processRow_all_ok env idx row s (h idx)]
    simp [St.mk.injEq, List.append_assoc]
    omega

theorem mergeLoop_fail_at (env : Env) (idx : Nat) (u : Int) :
    ∀ (j n k0 : Nat) (s : St), j < n →
      (∀ i, i < j → env.appendOk idx (k0 + i) = true) →
      env.appendOk idx (k0 + j) = false →
      mergeLoop env idx u k0 n s =
        ({ s with merged := s.merged ++ List.replicate j u,
                  totalPages := s.totalPages + j }, some appendFailMsg) := by
  intro j
  induction j with
  | zero =>
    intro n k0 s hj hok hfail
    cases n with
    | zero => omega
    | succ m =>
      rw [Nat.add_zero] at hfail
      simp [mergeLoop, hfail]
  | succ j ih =>
    intro n k0 s hj hok hfail
    cases n with
    | zero => omega
    | succ m =>
      have h0 : env.appendOk idx k0 = true := by
        have h1 := hok 0 (Nat.succ_pos j)
        simpa using h1
      have hok' : ∀ i, i < j →
          env.appendOk idx (k0 + 1 + i) = true := by
        intro i hi
        have e : k0 + 1 + i = k0 + (i + 1) := by omega
        rw [e]
        exact hok (i + 1) (by omega)
      have hfail' : env.appendOk idx (k0 + 1 + j) = false := by
        have e : k0 + 1 + j = k0 + (j + 1) := by omega
        rw [e]; exact hfail
      simp only [mergeLoop, h0, if_true,
        ih m (k0 + 1) _ (by omega) hok' hfail']
      simp [St.mk.injEq, List.append_assoc, List.replicate_succ]
      omega

theorem mergeLoop_err_of_exists (env : Env) (idx : Nat) (u : Int) :
    ∀ (n k0 : Nat) (s : St),
      (∃ j, j < n ∧ env.appendOk idx (k0 + j) = false) →
      ∃ s', mergeLoop env idx u k0 n s = (s', some appendFailMsg) ∧
        s'.errors = s.errors := by
  intro n
  induction n with
  | zero =>
    rintro k0 s ⟨j, hj, -⟩
    omega
  | succ m ih =>
    rintro k0 s ⟨j, hj, hja⟩
    cases h0 : env.appendOk idx k0 with
    | true =>
      simp only [mergeLoop, h0, if_true]
      apply ih (k0 + 1)
      have hj0 : j ≠ 0 := by
        intro hz
        rw [hz, Nat.add_zero] at hja
        rw [h0] at hja
        exact Bool.noConfusion hja
      refine ⟨j - 1, by omega, ?_⟩
      have e : k0 + 1 + (j - 1) = k0 + j := by omega
      rw [e]; exact hja
    | false =>
      simp only [mergeLoop, h0]
      exact ⟨s, by simp, rfl⟩

theorem resolveRow_some_inv (env : Env) (row : Row) (u : Int) (n : Nat)
    (h : resolveRow env row = some (u, n)) :
    (isna row.quantity || cellLeZero row.quantity) = false ∧
    ∃ q : ℚ, row.quantity = Cell.num q ∧ effId row = .ok u ∧
      env.files u = true ∧ n = (truncToInt q).toNat := by
  cases hskip : (isna row.quantity || cellLeZero row.quantity) with
  | true => rw [resolveRow, hskip] at h; simp at h
  | false =>
    refine ⟨rfl, ?_⟩
    obtain ⟨q, hq, -⟩ := quantity_num_of_not_skip row hskip
    rw [resolveRow, hskip] at h
    simp only [Bool.false_eq_true, if_false, hq, cellToInt] at h
    cases he : effId row with
    | error e => rw [he] at h; simp at h
    | ok u' =>
      rw [he] at h
      cases hf : env.files u' with
      | false => simp [hf] at h
      | true =>
        simp [hf] at h
        obtain ⟨hu, hn⟩ := h
        subst hu
        exact ⟨q, hq, rfl, hf, hn.symm⟩

theorem processRow_found_eq (env : Env) (idx : Nat) (row : Row) (s : St) (u : Int) (q : ℚ)
    (hq : row.quantity = Cell.num q)
    (h1 : (isna row.quantity || cellLeZero row.quantity) = false)
    (h2 : effId row = .ok u) (h3 : env.files u = true) :
    processRow env idx row s =
      (match mergeLoop env idx u 0 (truncToInt q).toNat s with
       | (s', none) => { s' with processedItems := s'.processedItems + 1 }
       | (s', some e) => { s' with errors := s'.errors ++ [rowErrMsg idx e] }) := by
  have hle : cellLeZero (Cell.num q) = false := by
    have h0 := h1; rw [hq] at h0; simpa [isna] using h0
  simp [processRow, hq, isna, hle, cellToInt, h2, h3]

/-! ### Lemmas about the filename computation -/

theorem removeXlsx_cons_ne (c : Char) (cs : List Char)
    (h : (c :: cs).take 5 ≠ xlsxPat) :
    removeXlsx (c :: cs) = c :: removeXlsx cs := by
  rw [removeXlsx.eq_def]
  split
  · rename_i heq
    exact absurd (by rw [heq]; rfl) h
  · rename_i c' cs' heq
    injection heq with e1 e2
    rw [e1, e2]
  · rename_i heq
    exact absurd heq (by simp)

theorem take_five_append_pat (b : List Char) (hlen : b.length < 5)
    (h : (b ++ xlsxPat).take 5 = xlsxPat) : b = [] := by
  have hble : b.length ≤ 5 := by omega
  rw [List.take_append_eq_append_take, List.take_of_length_le hble] at h
  have hdrop : xlsxPat.drop b.length = (b ++ xlsxPat.take (5 - b.length)).drop b.length := by
    rw [h]
  rw [List.drop_append_eq_append_drop, List.drop_of_length_le (le_refl b.length)] at hdrop
  simp only [Nat.sub_self, List.drop_zero, List.nil_append] at hdrop
  have h5 : b.length = 0 ∨ b.length = 1 ∨ b.length = 2 ∨ b.length = 3 ∨ b.length = 4 := by
    omega
  rcases h5 with h5 | h5 | h5 | h5 | h5
  · exact List.length_eq_zero.mp h5
  all_goals (rw [h5] at hdrop; exact absurd hdrop (by decide))

theorem removeXlsx_append_pat (b : List Char) (hb : hasXlsx b = false) :
    removeXlsx (b ++ xlsxPat) = b := by
  induction b with
  | nil => rfl
  | cons c cs ih =>
    have hb2 : decide ((c :: cs).take 5 = xlsxPat) = false ∧ hasXlsx cs = false := by
      simpa [hasXlsx] using hb
    have hne : (c :: cs).take 5 ≠ xlsxPat := by
      intro he
      rw [he] at hb2
      simp at hb2
    by_cases htk : ((c :: cs) ++ xlsxPat).take 5 = xlsxPat
    · by_cases hlt : (c :: cs).length < 5
      · exact absurd (take_five_append_pat (c :: cs) hlt htk) (by simp)
      · rw [List.take_append_of_le_length (by omega)] at htk
        exact absurd htk hne
    · rw [List.cons_append] at htk ⊢
      rw [removeXlsx_cons_ne c (cs ++ xlsxPat) (by simpa using htk)]
      rw [ih hb2.2]

/-! ### Claims -/

/-- C1: when every append succeeds (all rows are processed to the end),
the final `total_pages` counter equals the sum, over all rows, of the
row's page contribution — the truncated integer quantity for rows with
positive quantity whose effective id resolved to an existing label file,
and zero for every other row (in particular, missing-file rows contribute
nothing). -/
theorem totalPages_eq_sum_resolved (env : Env)
    (h : ∀ i k, env.appendOk i k = true) (irows : List (Nat × Row)) :
    (runRows env irows initSt).totalPages =
      (irows.map fun p => rowPages env p.2).sum := by
  rw [runRows_all_ok env h irows initSt]
  simp [initSt]

theorem totalPages_eq_sum_resolved_witness :
    (∀ i k, envScenario.appendOk i k = true) ∧
    (runRows envScenario scenarioRows initSt).totalPages =
      (scenarioRows.map fun p => rowPages envScenario p.2).sum ∧
    (runRows envScenario scenarioRows initSt).totalPages = 4 :=
  ⟨fun _ _ => rfl,
   totalPages_eq_sum_resolved envScenario (fun _ _ => rfl) scenarioRows,
   by decide⟩

/-- C2: when every append succeeds, the merged output is exactly the
concatenation, in spreadsheet row order, of one block per row, where a
row with quantity `q > 0` and an existing label file contributes the
block `List.replicate` of its truncated quantity (that many consecutive
copies of the file's content) and every other row contributes the empty
block; so row N's pages all precede row N+1's. -/
theorem merged_eq_ordered_blocks (env : Env)
    (h : ∀ i k, env.appendOk i k = true) (irows : List (Nat × Row)) :
    (runRows env irows initSt).merged =
      (irows.map fun p => rowBlock env p.2).flatten := by
  rw [runRows_all_ok env h irows initSt]
  simp [initSt]

theorem merged_eq_ordered_blocks_witness :
    (∀ i k, envScenario.appendOk i k = true) ∧
    (runRows envScenario scenarioRows initSt).merged =
      (scenarioRows.map fun p => rowBlock envScenario p.2).flatten ∧
    (runRows envScenario scenarioRows initSt).merged = [7413, 7413, 7413, 55] :=
  ⟨fun _ _ => rfl,
   merged_eq_ordered_blocks envScenario (fun _ _ => rfl) scenarioRows,
   by decide⟩

/-- C3: the effective id used to locate the label file is the variation
id whenever the variation id is present (not NaN) and not equal to 0, and
the item id otherwise (variation id NaN or equal to 0). -/
theorem effId_selection (row : Row) :
    (∀ v : ℚ, row.variationId = Cell.num v → v ≠ 0 →
      effId row = cellToInt row.variationId) ∧
    ((row.variationId = Cell.nan ∨ row.variationId = Cell.num 0) →
      effId row = cellToInt row.itemId) := by
  constructor
  · intro v hv hne
    simp [effId, hv, isna, cellNeZero, hne]
  · rintro (hv | hv) <;> simp [effId, hv, isna, cellNeZero]

theorem effId_selection_witness :
    effId ⟨Cell.num 7, Cell.num 5, Cell.num 1⟩ = Except.ok 5 ∧
    effId ⟨Cell.num 7, Cell.nan, Cell.num 1⟩ = Except.ok 7 ∧
    effId ⟨Cell.num 7, Cell.num 0, Cell.num 1⟩ = Except.ok 7 := by
  refine ⟨?_, ?_, ?_⟩
  · rw [(effId_selection ⟨Cell.num 7, Cell.num 5, Cell.num 1⟩).1 5 rfl (by decide)]
    rfl
  · rw [(effId_selection ⟨Cell.num 7, Cell.nan, Cell.num 1⟩).2 (Or.inl rfl)]
    rfl
  · rw [(effId_selection ⟨Cell.num 7, Cell.num 0, Cell.num 1⟩).2 (Or.inr rfl)]
    rfl

/-- C4: a row whose quantity is NaN (absent) or ≤ 0 is skipped outright:
the state is unchanged, so it contributes no pages, no
`processed_items` increment and no error entry. -/
theorem skip_nonpositive_quantity (env : Env) (idx : Nat) (row : Row) (s : St)
    (h : isna row.quantity = true ∨ cellLeZero row.quantity = true) :
    processRow env idx row s = s := by
  apply processRow_skip
  rcases h with h | h <;> simp [h]

theorem skip_nonpositive_quantity_witness :
    processRow envAllTrue 0 ⟨Cell.num 1, Cell.num 0, Cell.nan⟩ initSt = initSt ∧
    processRow envAllTrue 3 ⟨Cell.num 9, Cell.num 0, Cell.num 0⟩ initSt = initSt :=
  ⟨skip_nonpositive_quantity envAllTrue 0 ⟨Cell.num 1, Cell.num 0, Cell.nan⟩ initSt
     (Or.inl rfl),
   skip_nonpositive_quantity envAllTrue 3 ⟨Cell.num 9, Cell.num 0, Cell.num 0⟩ initSt
     (Or.inr (by decide))⟩

/-- C5: a failure while processing a row that passed the quantity check —
an effective-id coercion failure, or an append (file read) failure within
the merge loop — is caught for that row alone: exactly one entry naming
the row's spreadsheet position (index + 2) is appended to `errors`, and
iteration continues with the remaining rows, which are processed from the
resulting state. -/
theorem row_failure_caught_and_continues (env : Env) (idx : Nat) (row : Row)
    (rest : List (Nat × Row)) (s : St)
    (hs : (isna row.quantity || cellLeZero row.quantity) = false)
    (hfail : (∃ e, effId row = .error e) ∨
      (∃ u, effId row = .ok u ∧ env.files u = true ∧
        ∃ k, k < rowQty row ∧ env.appendOk idx k = false)) :
    (∃ m, (processRow env idx row s).errors = s.errors ++ [rowErrMsg idx m]) ∧
    runRows env ((idx, row) :: rest) s = runRows env rest (processRow env idx row s) := by
  refine ⟨?_, rfl⟩
  rcases hfail with ⟨e, he⟩ | ⟨u, hu, hf, k, hk, hko⟩
  · exact ⟨e, by rw [processRow_eff_err env idx row s e hs he]⟩
  · obtain ⟨q, hq, -⟩ := quantity_num_of_not_skip row hs
    have hrq : rowQty row = (truncToInt q).toNat := by simp [rowQty, hq, cellToInt]
    rw [hrq] at hk
    obtain ⟨s', hml, herr⟩ := mergeLoop_err_of_exists env idx u ((truncToInt q).toNat) 0 s
      ⟨k, hk, by simpa using hko⟩
    refine ⟨appendFailMsg, ?_⟩
    rw [processRow_found_eq env idx row s u q hq hs hu hf, hml]
    simp [herr]

theorem row_failure_caught_and_continues_witness :
    (∃ m, (processRow envAllTrue 0 ⟨Cell.nan, Cell.nan, Cell.num 2⟩ initSt).errors =
      initSt.errors ++ [rowErrMsg 0 m]) ∧
    runRows envAllTrue ((0, ⟨Cell.nan, Cell.nan, Cell.num 2⟩) :: [(1, ⟨Cell.num 8, Cell.num 0, Cell.num 1⟩)]) initSt =
      runRows envAllTrue [(1, ⟨Cell.num 8, Cell.num 0, Cell.num 1⟩)]
        (processRow envAllTrue 0 ⟨Cell.nan, Cell.nan, Cell.num 2⟩ initSt) :=
  row_failure_caught_and_continues envAllTrue 0 ⟨Cell.nan, Cell.nan, Cell.num 2⟩
    [(1, ⟨Cell.num 8, Cell.num 0, Cell.num 1⟩)] initSt (by decide)
    (Or.inl ⟨"cannot convert float NaN to integer", rfl⟩)

/-- C6: a row that passes the quantity check and resolves to effective id
`u` whose label file does not exist only appends `u` to `missing_pdfs`:
merged output, `total_pages` and `processed_items` are untouched, and the
loop goes on to process the remaining rows from the resulting state. -/
theorem missing_file_recorded_and_continues (env : Env) (idx : Nat) (row : Row)
    (rest : List (Nat × Row)) (s : St) (u : Int)
    (h1 : (isna row.quantity || cellLeZero row.quantity) = false)
    (h2 : effId row = .ok u) (h3 : env.files u = false) :
    processRow env idx row s = { s with missingPdfs := s.missingPdfs ++ [u] } ∧
    runRows env ((idx, row) :: rest) s = runRows env rest (processRow env idx row s) :=
  ⟨processRow_missing_file env idx row s u h1 h2 h3, rfl⟩

theorem missing_file_recorded_and_continues_witness :
    processRow envNoFiles 0 ⟨Cell.num 5, Cell.num 0, Cell.num 2⟩ initSt =
      { initSt with missingPdfs := initSt.missingPdfs ++ [5] } ∧
    runRows envNoFiles ((0, ⟨Cell.num 5, Cell.num 0, Cell.num 2⟩) :: [(1, ⟨Cell.num 8, Cell.num 0, Cell.num 1⟩)]) initSt =
      runRows envNoFiles [(1, ⟨Cell.num 8, Cell.num 0, Cell.num 1⟩)]
        (processRow envNoFiles 0 ⟨Cell.num 5, Cell.num 0, Cell.num 2⟩ initSt) :=
  missing_file_recorded_and_continues envNoFiles 0 ⟨Cell.num 5, Cell.num 0, Cell.num 2⟩
    [(1, ⟨Cell.num 8, Cell.num 0, Cell.num 1⟩)] initSt 5 (by decide) rfl rfl

/-- C7: when the workbook has no sheet named "Item Summary" the run
aborts with the sheet-missing schema error carrying the names of the
sheets actually present — whatever the data rows are, none is processed. -/
theorem missing_sheet_aborts (env : Env) (inp : Input)
    (h : "Item Summary" ∉ inp.sheetNames) :
    ∀ rows : List Row,
      run env { inp with rows := rows } = .error (.sheetMissing inp.sheetNames) := by
  intro rows
  simp [run, h]

theorem missing_sheet_aborts_witness :
    run envAllTrue { sheetNames := ["Sheet1", "Data"], columns := [], rows := [] } =
      .error (.sheetMissing ["Sheet1", "Data"]) :=
  missing_sheet_aborts envAllTrue
    { sheetNames := ["Sheet1", "Data"], columns := [], rows := [] } (by decide) []

/-- C8 counterexample: for the (legally uploadable) file name
`data.xlsx.xlsx`, the code removes both occurrences of `".xlsx"` and
suggests `mrp_labels_data.pdf`, not the claimed
`mrp_labels_{name minus extension}.pdf` = `mrp_labels_data.xlsx.pdf`. -/
theorem output_filename_cex :
    outputFilename "data.xlsx.xlsx" = "mrp_labels_data.pdf" ∧
    baseNameSpec "data.xlsx.xlsx" = "data.xlsx" ∧
    outputFilename "data.xlsx.xlsx" ≠
      "mrp_labels_" ++ baseNameSpec "data.xlsx.xlsx" ++ ".pdf" := by
  refine ⟨by decide, by decide, by decide⟩

/-- C8 (amended): the suggested output filename is
`mrp_labels_{base}.pdf` where `base` is the uploaded name with every
occurrence of the substring `".xlsx"` removed; in particular, for a name
in which `".xlsx"` occurs only as the final extension, `base` is the name
with its extension removed. -/
theorem output_filename_removes_every_xlsx (b : String)
    (hb : hasXlsx b.toList = false) :
    outputFilename (b ++ ".xlsx") = "mrp_labels_" ++ b ++ ".pdf" := by
  have hdata : (b ++ ".xlsx").toList = b.toList ++ xlsxPat := by
    simp [xlsxPat, String.toList]
  have : excelFilename (b ++ ".xlsx") = b := by
    rw [excelFilename, hdata, removeXlsx_append_pat b.toList hb]
    cases b
    rfl
  rw [outputFilename, this]

theorem output_filename_removes_every_xlsx_witness :
    hasXlsx "data".toList = false ∧
    outputFilename ("data" ++ ".xlsx") = "mrp_labels_" ++ "data" ++ ".pdf" :=
  ⟨by decide, output_filename_removes_every_xlsx "data" (by decide)⟩

/-- C9: a row whose raw quantity lies strictly between 0 and 1 passes the
skip check (it is positive), truncates to 0 repetitions, so with an
existing label file the row appends nothing and adds no pages, yet
`processed_items` is still incremented by 1. -/
theorem fractional_quantity_counted_without_pages (env : Env) (idx : Nat) (row : Row)
    (s : St) (q : ℚ) (u : Int)
    (hq : row.quantity = Cell.num q) (h0 : 0 < q) (h1 : q < 1)
    (hu : effId row = .ok u) (hf : env.files u = true) :
    processRow env idx row s = { s with processedItems := s.processedItems + 1 } := by
  have hnle : ¬ q ≤ 0 := not_le.mpr h0
  have hskip : (isna row.quantity || cellLeZero row.quantity) = false := by
    simp [hq, isna, cellLeZero, hnle]
  have htr : truncToInt q = 0 := by
    have hnum : 0 < q.num := Rat.num_pos.mpr h0
    have hden : (0 : Int) ≤ (q.den : Int) := Int.ofNat_nonneg q.den
    have hlt : q.num < (q.den : Int) := by
      exact_mod_cast Rat.lt_one_iff_num_lt_denom.mp h1
    unfold truncToInt
    rw [Int.tdiv_eq_ediv (le_of_lt hnum) hden]
    exact Int.ediv_eq_zero_of_lt (le_of_lt hnum) hlt
  rw [processRow_found_eq env idx row s u q hq hskip hu hf, htr]
  simp [mergeLoop]

theorem fractional_quantity_counted_without_pages_witness :
    0 < mkRat 1 2 ∧ mkRat 1 2 < 1 ∧
    processRow envAllTrue 0 ⟨Cell.num 7, Cell.num 0, Cell.num (mkRat 1 2)⟩ initSt =
      { initSt with processedItems := initSt.processedItems + 1 } :=
  ⟨by decide, by decide,
   fractional_quantity_counted_without_pages envAllTrue 0
     ⟨Cell.num 7, Cell.num 0, Cell.num (mkRat 1 2)⟩ initSt (mkRat 1 2) 7 rfl
     (by decide) (by decide) rfl rfl⟩

/-- C10: row handling is not atomic: if a resolved row's append raises at
repetition `j` (after `j` successful appends) then the `j` copies already
appended stay in the merged output and `total_pages` keeps the `j`
increments, while `processed_items` and `missing_pdfs` are unchanged and
one error entry for the row is recorded. -/
theorem append_failure_keeps_partial_output (env : Env) (idx : Nat) (row : Row)
    (s : St) (u : Int) (n j : Nat)
    (hres : resolveRow env row = some (u, n)) (hj : j < n)
    (hok : ∀ k, k < j → env.appendOk idx k = true)
    (hfail : env.appendOk idx j = false) :
    processRow env idx row s =
      { s with merged := s.merged ++ List.replicate j u,
               totalPages := s.totalPages + j,
               errors := s.errors ++ [rowErrMsg idx appendFailMsg] } := by
  obtain ⟨hskip, q, hq, hu, hf, hn⟩ := resolveRow_some_inv env row u n hres
  rw [processRow_found_eq env idx row s u q hq hskip hu hf]
  rw [mergeLoop_fail_at env idx u j ((truncToInt q).toNat) 0 s (hn ▸ hj)
    (fun i hi => by simpa using hok i hi) (by simpa using hfail)]

theorem append_failure_keeps_partial_output_witness :
    resolveRow envFailSecond ⟨Cell.num 9, Cell.num 5, Cell.num 3⟩ = some (5, 3) ∧
    processRow envFailSecond 0 ⟨Cell.num 9, Cell.num 5, Cell.num 3⟩ initSt =
      { initSt with merged := initSt.merged ++ List.replicate 1 5,
                    totalPages := initSt.totalPages + 1,
                    errors := initSt.errors ++ [rowErrMsg 0 appendFailMsg] } :=
  ⟨by decide,
   append_failure_keeps_partial_output envFailSecond 0
     ⟨Cell.num 9, Cell.num 5, Cell.num 3⟩ initSt 5 3 1 (by decide) (by decide)
     (fun k hk => by
       have hk0 : k = 0 := by omega
       rw [hk0]; rfl)
     rfl⟩

end MrpLabel
